import Mathlib

/-! # Arcade card ledger: a shallow embedding of `server.js`

The Express handlers of `server.js` are translated into pure functions that
pass the SQLite database explicitly.  Modelling decisions:

* A JavaScript number / SQLite `REAL` is a value of `Num`: a rational (the
  value of a binary64 number), one of the two infinities, or `nan`.  Parsing
  and addition round to binary64 (nearest, ties to even, overflow to an
  infinity, gradual underflow); the sign of zero is not kept.
  SQLite never stores a NaN (it stores NULL instead), so inside a column `nan`
  stands for SQL NULL, which JavaScript reads back as `null`.
* The route parameter `:id` is the integer key that SQLite's INTEGER affinity
  resolves it to; it is a natural number.
* A field of a request body is `undefined`, `null`, a boolean, a number or a
  text; arrays and objects are left out.  `holder`, `number`, `gameId` and
  `note` are texts, the empty text standing for a missing field as well.
* The columns `created_at` and `date` (wall-clock timestamps) are left out.
* Every SQL statement may fail for reasons outside the program (disk, lock);
  a `Faults` record says which statements of one request do so.
* The connection setting `PRAGMA foreign_keys` is part of the database state.
  `server.js` never issues that pragma, so the connection it opens keeps
  SQLite's default, which is off.
-/

namespace Arcade

/-! ## Numbers -/

/-- JavaScript number or SQLite REAL value. -/
inductive Num where
  | nan
  | fin (q : ℚ)
  | posInf
  | negInf
deriving DecidableEq, Repr

namespace Num

/-- Unary minus, the `-c` of the play handler. -/
def neg : Num → Num
  | nan => nan
  | fin a => fin (-a)
  | posInf => negInf
  | negInf => posInf

/-- Power of two as a rational. -/
def pow2 (e : Int) : ℚ :=
  if 0 ≤ e then ((2 ^ e.toNat : Nat) : ℚ) else 1 / ((2 ^ (-e).toNat : Nat) : ℚ)

/-- Integer nearest to a rational that is not negative, ties to even. -/
def roundHalfEven (r : ℚ) : Nat :=
  if r - (r.floor.toNat : ℚ) < 1 / 2 then r.floor.toNat
  else if 1 / 2 < r - (r.floor.toNat : ℚ) then r.floor.toNat + 1
  else if r.floor.toNat % 2 = 0 then r.floor.toNat
  else r.floor.toNat + 1

/-- Number of halvings that bring a natural number below 2, counted with a
bound on the number of steps. -/
def log2Fuel : Nat → Nat → Nat
  | 0, _ => 0
  | fuel + 1, n => if n < 2 then 0 else log2Fuel fuel (n / 2) + 1

/-- Binary logarithm of a natural number, rounded down (0 at 0). -/
def log2 (n : Nat) : Nat := log2Fuel n n

/-- Binary exponent of a positive rational `a`: the `e` with
`2 ^ e ≤ a < 2 ^ (e + 1)`.  The difference of the logarithms of numerator and
denominator is this `e` or one more. -/
def binade (a : ℚ) : Int :=
  if a < pow2 ((log2 a.num.toNat : Int) - (log2 a.den : Int)) then
    (log2 a.num.toNat : Int) - (log2 a.den : Int) - 1
  else (log2 a.num.toNat : Int) - (log2 a.den : Int)

/-- Binary64 number nearest to a positive rational: 53 significant bits,
exponents from -1022 (subnormal below) to 1023, ties to even, and infinity
from `2 ^ 1024` on. -/
def roundPos (a : ℚ) : Num :=
  if pow2 1024 ≤
      (roundHalfEven (a / pow2 (max (binade a) (-1022) - 52)) : ℚ)
        * pow2 (max (binade a) (-1022) - 52) then posInf
  else fin ((roundHalfEven (a / pow2 (max (binade a) (-1022) - 52)) : ℚ)
        * pow2 (max (binade a) (-1022) - 52))

/-- Binary64 number nearest to a rational. -/
def ofRat (q : ℚ) : Num :=
  if q = 0 then fin 0
  else if 0 < q then roundPos q
  else (roundPos (-q)).neg

/-- Binary64 number that a JSON number denotes. -/
def round : Num → Num
  | fin q => ofRat q
  | x => x

/-- Addition of binary64 numbers as in IEEE 754 and in SQLite: the exact sum
rounded, with NULL and NaN absorbing. -/
def add : Num → Num → Num
  | nan, _ => nan
  | _, nan => nan
  | fin a, fin b => ofRat (a + b)
  | fin _, posInf => posInf
  | fin _, negInf => negInf
  | posInf, fin _ => posInf
  | negInf, fin _ => negInf
  | posInf, posInf => posInf
  | negInf, negInf => negInf
  | posInf, negInf => nan
  | negInf, posInf => nan

/-- Subtraction, the `balance - ?` of the play handler: in binary64 it is
the addition of the negated number. -/
def sub (a b : Num) : Num := add a (neg b)

/-- JavaScript `a < b` on numbers: false as soon as one side is NaN. -/
def lt : Num → Num → Bool
  | nan, _ => false
  | _, nan => false
  | fin a, fin b => decide (a < b)
  | fin _, posInf => true
  | fin _, negInf => false
  | posInf, _ => false
  | negInf, negInf => false
  | negInf, _ => true

/-- JavaScript `a <= b` on numbers: false as soon as one side is NaN. -/
def le : Num → Num → Bool
  | nan, _ => false
  | _, nan => false
  | fin a, fin b => decide (a ≤ b)
  | _, posInf => true
  | negInf, _ => true
  | posInf, _ => false
  | fin _, negInf => false

/-- JavaScript `isNaN` on a number. -/
def isNaN : Num → Bool
  | nan => true
  | _ => false

/-- JavaScript `x || 0` on a number: NaN and zero are falsy. -/
def orZero : Num → Num
  | nan => fin 0
  | fin q => if q = 0 then fin 0 else fin q
  | x => x

/-- Number that JavaScript sees when it compares a column value: the `null`
read back from SQL NULL is coerced to zero by `<`. -/
def ofColumn : Num → Num
  | nan => fin 0
  | x => x

end Num

/-! ## `parseFloat` -/

/-- Field of a JSON request body. -/
inductive JsVal where
  | undefined
  | null
  | bool (b : Bool)
  | num (n : Num)
  | str (s : String)
deriving DecidableEq, Repr

/-- White space skipped by `parseFloat` at the start of its argument. -/
def isStrWhiteSpace (c : Char) : Bool :=
  c.toNat = 32 || c.toNat = 9 || c.toNat = 10 || c.toNat = 11 || c.toNat = 12 ||
  c.toNat = 13 || c.toNat = 160 || c.toNat = 65279 || c.toNat = 8232 || c.toNat = 8233 ||
  c.toNat = 5760 || (8192 ≤ c.toNat && c.toNat ≤ 8202) || c.toNat = 8239 ||
  c.toNat = 8287 || c.toNat = 12288

/-- Value of a run of decimal digits. -/
def digitsVal (cs : List Char) : Nat :=
  cs.foldl (fun acc c => 10 * acc + (c.toNat - 48)) 0

/-- Exponent part of a decimal literal: `e` or `E`, an optional sign and at
least one digit; anything else is not part of the literal and counts as 0. -/
def exponentVal : List Char → Int
  | c :: t =>
    if c = 'e' || c = 'E' then
      match t with
      | '+' :: u => if (u.takeWhile Char.isDigit).isEmpty then 0
                    else (digitsVal (u.takeWhile Char.isDigit) : Int)
      | '-' :: u => if (u.takeWhile Char.isDigit).isEmpty then 0
                    else -(digitsVal (u.takeWhile Char.isDigit) : Int)
      | u => if (u.takeWhile Char.isDigit).isEmpty then 0
             else (digitsVal (u.takeWhile Char.isDigit) : Int)
    else 0
  | [] => 0

/-- Longest unsigned decimal literal at the start of the text: digits, an
optional fraction and an optional exponent, with at least one digit.  Its
value is the binary64 number nearest to the decimal value. -/
def parseDecimal (cs : List Char) : Option Num :=
  let ip := cs.takeWhile Char.isDigit
  let r1 := cs.dropWhile Char.isDigit
  let fp := match r1 with
    | '.' :: t => t.takeWhile Char.isDigit
    | _ => []
  let r2 := match r1 with
    | '.' :: t => t.dropWhile Char.isDigit
    | _ => r1
  if ip.isEmpty && fp.isEmpty then none
  else some (Num.ofRat
    (((digitsVal (ip ++ fp) : ℚ) / (10 : ℚ) ^ fp.length) * (10 : ℚ) ^ exponentVal r2))

/-- Unsigned part of the literal: `Infinity` or a decimal literal. -/
def parseUnsigned (cs : List Char) : Num :=
  if "Infinity".toList.isPrefixOf cs then Num.posInf
  else match parseDecimal cs with
    | some x => x
    | none => Num.nan

/-- Text after the leading white space: an optional sign and the literal. -/
def parseTrimmed : List Char → Num
  | '-' :: t => (parseUnsigned t).neg
  | '+' :: t => parseUnsigned t
  | cs => parseUnsigned cs

/-- ECMAScript `parseFloat` on a text. -/
def parseFloatStr (s : String) : Num :=
  parseTrimmed (s.toList.dropWhile isStrWhiteSpace)

/-- ECMAScript `parseFloat` on a body field: the argument is converted to a
text first, so a number comes back as itself (the binary64 number that the
JSON number denotes) and `undefined`, `null`, `true` and `false` give NaN. -/
def parseFloat : JsVal → Num
  | .num n => n.round
  | .str s => parseFloatStr s
  | _ => Num.nan

/-! ## Database -/

/-- Row of table `cards`. -/
structure Card where
  id : Nat
  holder : String
  number : String
  balance : Num
deriving DecidableEq, Repr

/-- Values of column `type` of table `transactions`. -/
inductive TxType where
  | recarga
  | juego
deriving DecidableEq, Repr

/-- Row of table `transactions`. -/
structure Transaction where
  id : Nat
  card_id : Nat
  type : TxType
  amount : Num
  gameId : Option String
  note : Option String
deriving DecidableEq, Repr

/-- State of the SQLite database behind the handle `db`. -/
structure Db where
  cards : List Card
  transactions : List Transaction
  /-- Entry of `sqlite_sequence` for `cards`: the largest id ever assigned. -/
  cardSeq : Nat
  /-- Entry of `sqlite_sequence` for `transactions`. -/
  txSeq : Nat
  /-- Setting `PRAGMA foreign_keys` of the connection. -/
  foreignKeys : Bool
deriving DecidableEq, Repr

/-- Database file before any table holds a row, on the connection that
`new sqlite3.Database(DB_FILE)` opens: no pragma is issued, foreign keys are
not enforced. -/
def emptyDb : Db :=
  { cards := [], transactions := [], cardSeq := 0, txSeq := 0, foreignKeys := false }

/-- Statements of one request that fail in the store. -/
structure Faults where
  insertCard : Bool
  selectCard : Bool
  insertTx : Bool
  updateCard : Bool
  selectBalance : Bool
  deleteCard : Bool
  selectTransactions : Bool
deriving DecidableEq, Repr

/-- Store in which every statement runs. -/
def noFaults : Faults :=
  { insertCard := false, selectCard := false, insertTx := false,
    updateCard := false, selectBalance := false, deleteCard := false,
    selectTransactions := false }

/-- Errors a statement reports. -/
inductive SqlError where
  | unique
  | foreignKey
  | fault
deriving DecidableEq, Repr

/-- Text of `err.message`. -/
def SqlError.message : SqlError → String
  | .unique => "SQLITE_CONSTRAINT: UNIQUE constraint failed: cards.number"
  | .foreignKey => "SQLITE_CONSTRAINT: FOREIGN KEY constraint failed"
  | .fault => "SQLITE_ERROR"

/-- Test `err.message.includes("UNIQUE")` of the create handler. -/
def SqlError.isUnique : SqlError → Bool
  | .unique => true
  | _ => false

/-- Id that AUTOINCREMENT assigns next: one more than the largest id the
table ever held. -/
def nextId (seq : Nat) (ids : List Nat) : Nat :=
  max seq (ids.foldr max 0) + 1

/-- Statement `SELECT ... FROM cards WHERE id = ?` through `db.get`. -/
def selectCard (db : Db) (id : Nat) : Option Card :=
  db.cards.find? (fun c => c.id = id)

/-- Statement `INSERT INTO cards (holder, number, balance) VALUES (?, ?, ?)`;
the result carries `this.lastID`. -/
def insertCard (db : Db) (fault : Bool) (holder number : String) (balance : Num) :
    Except SqlError (Db × Nat) :=
  if fault then .error .fault
  else if db.cards.any (fun c => c.number = number) then .error .unique
  else
    let id := nextId db.cardSeq (db.cards.map Card.id)
    .ok ({ db with cards := db.cards ++ [⟨id, holder, number, balance⟩], cardSeq := id }, id)

/-- Statement `INSERT INTO transactions (card_id, type, amount, gameId, note)`. -/
def insertTx (db : Db) (fault : Bool) (card_id : Nat) (type : TxType) (amount : Num)
    (gameId note : Option String) : Except SqlError Db :=
  if fault then .error .fault
  else if db.foreignKeys && !(db.cards.any (fun c => c.id = card_id)) then .error .foreignKey
  else
    let id := nextId db.txSeq (db.transactions.map Transaction.id)
    .ok { db with
          transactions := db.transactions ++ [⟨id, card_id, type, amount, gameId, note⟩],
          txSeq := id }

/-- Rows of `cards` after `SET balance = g(balance) WHERE id = ?`. -/
def setBalance (cards : List Card) (id : Nat) (g : Num → Num) : List Card :=
  cards.map (fun c => if c.id = id then { c with balance := g c.balance } else c)

/-- Statement `UPDATE cards SET balance = g(balance) WHERE id = ?`. -/
def updateBalance (db : Db) (fault : Bool) (id : Nat) (g : Num → Num) : Except SqlError Db :=
  if fault then .error .fault
  else .ok { db with cards := setBalance db.cards id g }

/-- Insert of a transaction row whose error the callback only writes to the
console: `if (err) console.error(...)`, after which the handler goes on. -/
def insertTxLogged (db : Db) (fault : Bool) (card_id : Nat) (type : TxType) (amount : Num)
    (gameId note : Option String) : Db :=
  match insertTx db fault card_id type amount gameId note with
  | .error _ => db
  | .ok d => d

/-- Statement `DELETE FROM cards WHERE id = ?`; the result carries
`this.changes`.  The clause `ON DELETE CASCADE` of `transactions.card_id`
acts only when the connection enforces foreign keys. -/
def deleteCardRow (db : Db) (fault : Bool) (id : Nat) : Except SqlError (Db × Nat) :=
  if fault then .error .fault
  else
    let changes := (db.cards.filter (fun c => c.id = id)).length
    .ok ({ db with
            cards := db.cards.filter (fun c => !decide (c.id = id)),
            transactions :=
              if db.foreignKeys && decide (0 < changes) then
                db.transactions.filter (fun t => !decide (t.card_id = id))
              else db.transactions }, changes)

/-- Statement `SELECT ... FROM transactions WHERE card_id = ? ORDER BY id DESC
LIMIT 200`. -/
def selectTransactions (db : Db) (id : Nat) : List Transaction :=
  ((db.transactions.filter (fun t => t.card_id = id)).insertionSort
    (fun a b => b.id ≤ a.id)).take 200

/-! ## Handlers -/

/-- Body passed to `res.json`. -/
inductive Body where
  | error (msg : String)
  | message (msg : String)
  | card (row : Option Card)
  | transactions (rows : List Transaction)
deriving DecidableEq, Repr

/-- Status code and body of an HTTP response. -/
structure Response where
  status : Nat
  body : Body
deriving DecidableEq, Repr

/-- Handler `POST /api/cards`.  A missing `holder` or `number` is the empty
text, which the guard treats in the same way. -/
def createCard (db : Db) (f : Faults) (holder number : String) (initialBalance : JsVal) :
    Db × Response :=
  if holder = "" || number = "" then (db, ⟨400, .error "holder y number son requeridos"⟩)
  else
    let initBal := (parseFloat initialBalance).orZero
    match insertCard db f.insertCard holder number initBal with
    | .error err =>
      if err.isUnique then (db, ⟨400, .error "Número de tarjeta ya existe"⟩)
      else (db, ⟨500, .error err.message⟩)
    | .ok (db1, id) =>
      if f.selectCard then (db1, ⟨500, .error SqlError.fault.message⟩)
      else
        let row := selectCard db1 id
        if Num.lt (.fin 0) initBal then
          (insertTxLogged db1 f.insertTx id .recarga initBal none (some "Recarga inicial"),
            ⟨201, .card row⟩)
        else (db1, ⟨201, .card row⟩)

/-- Handler `GET /api/cards/:id`. -/
def getCard (db : Db) (f : Faults) (id : Nat) : Response :=
  if f.selectCard then ⟨500, .error SqlError.fault.message⟩
  else match selectCard db id with
    | none => ⟨404, .error "Tarjeta no encontrada"⟩
    | some row => ⟨200, .card (some row)⟩

/-- Handler `GET /api/cards/:id/transactions`. -/
def getTransactions (db : Db) (f : Faults) (id : Nat) : Response :=
  if f.selectTransactions then ⟨500, .error SqlError.fault.message⟩
  else ⟨200, .transactions (selectTransactions db id)⟩

/-- Handler `POST /api/cards/:id/recharge`.  A missing `note` is the empty
text, which `note || null` turns into NULL as well. -/
def recharge (db : Db) (f : Faults) (id : Nat) (amount : JsVal) (note : String) :
    Db × Response :=
  let amt := parseFloat amount
  if amt.isNaN || amt.le (.fin 0) then (db, ⟨400, .error "Monto inválido"⟩)
  else
    match updateBalance db f.updateCard id (fun b => b.add amt) with
    | .error err => (db, ⟨500, .error err.message⟩)
    | .ok db1 =>
      let db2 := insertTxLogged db1 f.insertTx id .recarga amt none
        (if note = "" then none else some note)
      if f.selectCard then (db2, ⟨500, .error SqlError.fault.message⟩)
      else (db2, ⟨200, .card (selectCard db2 id)⟩)

/-- Handler `POST /api/cards/:id/play`.  A missing `gameId` is the empty
text, which the guard treats in the same way. -/
def play (db : Db) (f : Faults) (id : Nat) (gameId : String) (cost : JsVal) : Db × Response :=
  let c := parseFloat cost
  if gameId = "" || c.isNaN || c.le (.fin 0) then (db, ⟨400, .error "Datos inválidos"⟩)
  else if f.selectBalance then (db, ⟨500, .error SqlError.fault.message⟩)
  else
    match selectCard db id with
    | none => (db, ⟨404, .error "Tarjeta no encontrada"⟩)
    | some row =>
      if row.balance.ofColumn.lt c then (db, ⟨400, .error "Saldo insuficiente"⟩)
      else
        match updateBalance db f.updateCard id (fun b => b.sub c) with
        | .error err => (db, ⟨500, .error err.message⟩)
        | .ok db1 =>
          let db2 := insertTxLogged db1 f.insertTx id .juego c.neg (some gameId) none
          if f.selectCard then (db2, ⟨500, .error SqlError.fault.message⟩)
          else (db2, ⟨200, .card (selectCard db2 id)⟩)

/-- Handler `DELETE /api/cards/:id`. -/
def deleteCard (db : Db) (f : Faults) (id : Nat) : Db × Response :=
  match deleteCardRow db f.deleteCard id with
  | .error err => (db, ⟨500, .error err.message⟩)
  | .ok (db1, changes) =>
    if changes = 0 then (db1, ⟨404, .error "Tarjeta no encontrada"⟩)
    else (db1, ⟨200, .message "Tarjeta eliminada"⟩)

/-- Response of the play handler for an overdraft. -/
def insufficientBalance : Response := ⟨400, .error "Saldo insuficiente"⟩

/-- Response of the handlers for an unknown card. -/
def cardNotFound : Response := ⟨404, .error "Tarjeta no encontrada"⟩

/-- Response of the recharge handler for a rejected amount. -/
def invalidAmount : Response := ⟨400, .error "Monto inválido"⟩

/-! ## Sequences of requests -/

/-- Request that changes the store. -/
inductive Op where
  | createCard (holder number : String) (initialBalance : JsVal)
  | recharge (id : Nat) (amount : JsVal) (note : String)
  | play (id : Nat) (gameId : String) (cost : JsVal)
  | deleteCard (id : Nat)
deriving DecidableEq, Repr

/-- Effect of one request on a store whose statements all run. -/
def Op.apply (db : Db) : Op → Db × Response
  | .createCard holder number initialBalance => Arcade.createCard db noFaults holder number initialBalance
  | .recharge id amount note => Arcade.recharge db noFaults id amount note
  | .play id gameId cost => Arcade.play db noFaults id gameId cost
  | .deleteCard id => Arcade.deleteCard db noFaults id

/-- Store after the requests have run one after another. -/
def runOps (db : Db) (ops : List Op) : Db :=
  ops.foldl (fun d o => (o.apply d).1) db

/-- Effect of one request on a store in which the statements named by `f`
fail. -/
def Op.run (db : Db) (f : Faults) : Op → Db × Response
  | .createCard holder number initialBalance => Arcade.createCard db f holder number initialBalance
  | .recharge id amount note => Arcade.recharge db f id amount note
  | .play id gameId cost => Arcade.play db f id gameId cost
  | .deleteCard id => Arcade.deleteCard db f id

/-- Store after the requests, each with its own failing statements, have run
one after another. -/
def runWith (db : Db) (reqs : List (Faults × Op)) : Db :=
  reqs.foldl (fun d r => (r.2.run d r.1).1) db

/-- Whether a request is a recharge or a play. -/
def Op.isLedgerOp : Op → Bool
  | .recharge _ _ _ => true
  | .play _ _ _ => true
  | _ => false

/-- Balance stored for a card id. -/
def balanceOf (db : Db) (id : Nat) : Option Num :=
  (selectCard db id).map Card.balance

/-- Sum of signed amounts. -/
def sumAmounts (txs : List Transaction) : Num :=
  (txs.map Transaction.amount).foldr Num.add (.fin 0)

/-- Number reached from `b` by adding the signed amounts one after another,
in the order of the rows, each addition rounded as the store does. -/
def addAmounts (b : Num) (txs : List Transaction) : Num :=
  txs.foldl (fun acc t => acc.add t.amount) b

/-- Transactions of a card that are in the later store and were appended
after the earlier one. -/
def appendedFor (id : Nat) (before after : Db) : List Transaction :=
  (after.transactions.drop before.transactions.length).filter (fun t => t.card_id = id)

/-! ## Concurrent play requests

Node runs each callback to completion, and SQLite runs each statement as a
unit, but the statements and callbacks of two requests may alternate.  One
play request is a process whose steps are: the handler (guard, then the
`SELECT balance`), the callback that checks the balance, the `UPDATE`, the
`INSERT`, and the final `SELECT` with the response. -/

/-- Play request. -/
structure PlayReq where
  id : Nat
  gameId : String
  cost : JsVal
  faults : Faults
deriving DecidableEq, Repr

/-- Point a play request has reached. -/
inductive PlayPc where
  | start
  | gotRow (row : Option Card)
  | updating
  | inserting
  | responding
  | done (r : Response)
deriving DecidableEq, Repr

/-- One step of a play request on the shared database. -/
def playStep (r : PlayReq) (db : Db) : PlayPc → Db × PlayPc
  | .start =>
    if r.gameId = "" || (parseFloat r.cost).isNaN || (parseFloat r.cost).le (.fin 0) then
      (db, .done ⟨400, .error "Datos inválidos"⟩)
    else if r.faults.selectBalance then (db, .done ⟨500, .error SqlError.fault.message⟩)
    else (db, .gotRow (selectCard db r.id))
  | .gotRow none => (db, .done ⟨404, .error "Tarjeta no encontrada"⟩)
  | .gotRow (some row) =>
    if row.balance.ofColumn.lt (parseFloat r.cost) then
      (db, .done ⟨400, .error "Saldo insuficiente"⟩)
    else (db, .updating)
  | .updating =>
    match updateBalance db r.faults.updateCard r.id (fun b => b.sub (parseFloat r.cost)) with
    | .error err => (db, .done ⟨500, .error err.message⟩)
    | .ok db1 => (db1, .inserting)
  | .inserting =>
    (insertTxLogged db r.faults.insertTx r.id .juego (parseFloat r.cost).neg (some r.gameId) none,
      .responding)
  | .responding =>
    if r.faults.selectCard then (db, .done ⟨500, .error SqlError.fault.message⟩)
    else (db, .done ⟨200, .card (selectCard db r.id)⟩)
  | .done resp => (db, .done resp)

/-- Steps of one request taken in a row. -/
def playSteps (r : PlayReq) : Nat → Db × PlayPc → Db × PlayPc
  | 0, s => s
  | n + 1, s => playSteps r n (playStep r s.1 s.2)

/-- Database and the points two concurrent play requests have reached. -/
structure Race where
  db : Db
  pcA : PlayPc
  pcB : PlayPc
deriving DecidableEq, Repr

/-- Run of two play requests under a schedule: `true` lets the first request
take its next step, `false` the second. -/
def runRace (a b : PlayReq) : List Bool → Race → Race
  | [], s => s
  | true :: rest, s =>
    runRace a b rest { s with db := (playStep a s.db s.pcA).1, pcA := (playStep a s.db s.pcA).2 }
  | false :: rest, s =>
    runRace a b rest { s with db := (playStep b s.db s.pcB).1, pcB := (playStep b s.db s.pcB).2 }

/-- Schedule in which each request takes exactly its five steps. -/
def fairSchedule (sched : List Bool) : Bool :=
  sched.count true = 5 && sched.count false = 5

/-- Store with one card of balance 10 and no transaction. -/
def raceDb : Db :=
  { cards := [⟨1, "Ana", "1111", .fin 10⟩], transactions := [], cardSeq := 1, txSeq := 0,
    foreignKeys := false }

/-! ## Stores and predicates used in the statements -/

/-- Store right after the start-up block of `server.js` on a fresh file: both
tables exist and, the count of cards being 0, the demo card has been inserted
with balance 50 (and no transaction). -/
def initDb : Db :=
  match insertCard emptyDb false "Jugador Demo" "0000-0000-0000-0001" (.fin 50) with
  | .ok (db, _) => db
  | .error _ => emptyDb

/-- Store after start-up and the creation of a card (id 2) with the initial
balance `10000000000000000`. -/
def bigDb : Db :=
  runOps initDb [Op.createCard "Ana" "1111" (.str "10000000000000000")]

/-- Two recharges of 1 on card 2. -/
def twoRecharges : List Op :=
  [Op.recharge 2 (.str "1") "", Op.recharge 2 (.str "1") ""]

/-- Store in which only the insert into `transactions` fails. -/
def insertTxFails : Faults :=
  { insertCard := false, selectCard := false, insertTx := true,
    updateCard := false, selectBalance := false, deleteCard := false,
    selectTransactions := false }

/-- Whether every card of the store has a balance of at least zero. -/
def nonNegative (db : Db) : Bool :=
  db.cards.all (fun c => Num.le (.fin 0) c.balance)

/-- Whether the parsed amount passes the guard of the recharge and play
handlers: it is not NaN and it is not `<= 0`. -/
def validAmount (v : JsVal) : Bool :=
  !((parseFloat v).isNaN || (parseFloat v).le (.fin 0))

/-- Whether a number is finite. -/
def Num.isFinite : Num → Bool
  | .fin _ => true
  | _ => false

/-- Rows that `History` returns for a card id when its statement runs. -/
def history (db : Db) (id : Nat) : List Transaction :=
  match (getTransactions db noFaults id).body with
  | .transactions rows => rows
  | _ => []

/-- First request of the race: a play of cost 10 tagged `pacman`. -/
def debitA : PlayReq := ⟨1, "pacman", .num (.fin 10), noFaults⟩

/-- Second request of the race: a play of cost 10 tagged `tetris`. -/
def debitB : PlayReq := ⟨1, "tetris", .num (.fin 10), noFaults⟩

/-! ## Statements -/

theorem selectCard_id (db : Db) (id : Nat) (c : Card) (h : selectCard db id = some c) :
    c.id = id := by
  have := List.find?_some h
  simpa using this

theorem selectCard_mem (db : Db) (id : Nat) (c : Card) (h : selectCard db id = some c) :
    c ∈ db.cards := List.mem_of_find?_eq_some h

theorem any_id_of_selectCard (db : Db) (id : Nat) (c : Card) (h : selectCard db id = some c) :
    db.cards.any (fun c => decide (c.id = id)) = true := by
  rw [List.any_eq_true]
  exact ⟨c, selectCard_mem db id c h, by simp [selectCard_id db id c h]⟩

theorem find_setBalance (cards : List Card) (id k : Nat) (g : Num → Num) :
    (setBalance cards k g).find? (fun c => decide (c.id = id))
      = (cards.find? (fun c => decide (c.id = id))).map
          (fun c => if c.id = k then { c with balance := g c.balance } else c) := by
  unfold setBalance
  rw [List.find?_map]
  congr 2
  funext c
  by_cases hk : c.id = k <;> simp [hk]

theorem updateBalance_ok (db : Db) (id : Nat) (g : Num → Num) :
    updateBalance db false id g = .ok { db with cards := setBalance db.cards id g } := by
  simp [updateBalance]

theorem balanceOf_setBalance (db d : Db) (id k : Nat) (g : Num → Num)
    (hc : d.cards = setBalance db.cards k g) :
    balanceOf d id = (balanceOf db id).map (fun b => if id = k then g b else b) := by
  unfold balanceOf selectCard
  rw [hc, find_setBalance]
  cases h : db.cards.find? (fun c => decide (c.id = id)) with
  | none => rfl
  | some c =>
    have hid : c.id = id := by simpa using List.find?_some h
    by_cases hk : id = k <;> simp [hid, hk]

theorem any_id_setBalance (cards : List Card) (id k : Nat) (g : Num → Num) :
    (setBalance cards k g).any (fun c => decide (c.id = id))
      = cards.any (fun c => decide (c.id = id)) := by
  unfold setBalance
  rw [List.any_map]
  congr 1
  funext c
  by_cases hk : c.id = k <;> simp [hk]

theorem insertTx_cases (db : Db) (k : Nat) (ty : TxType) (a : Num) (g n : Option String) :
    (insertTx db false k ty a g n = .error .foreignKey ∧
        db.cards.any (fun c => decide (c.id = k)) = false) ∨
    insertTx db false k ty a g n = .ok { db with
      transactions := db.transactions ++
        [⟨nextId db.txSeq (db.transactions.map Transaction.id), k, ty, a, g, n⟩],
      txSeq := nextId db.txSeq (db.transactions.map Transaction.id) } := by
  unfold insertTx
  by_cases h : (db.foreignKeys && !(db.cards.any (fun c => decide (c.id = k)))) = true
  · left
    simp only [h, if_true]
    simp only [Bool.and_eq_true, Bool.not_eq_true'] at h
    exact ⟨by simp, h.2⟩
  · right
    simp [h]

theorem insertTxLogged_cases (db : Db) (k : Nat) (ty : TxType) (a : Num) (g n : Option String) :
    (insertTxLogged db false k ty a g n = db ∧
        db.cards.any (fun c => decide (c.id = k)) = false) ∨
    insertTxLogged db false k ty a g n = { db with
      transactions := db.transactions ++
        [⟨nextId db.txSeq (db.transactions.map Transaction.id), k, ty, a, g, n⟩],
      txSeq := nextId db.txSeq (db.transactions.map Transaction.id) } := by
  unfold insertTxLogged
  rcases insertTx_cases db k ty a g n with ⟨h, h2⟩ | h
  · left; rw [h]; exact ⟨rfl, h2⟩
  · right; rw [h]

theorem insertTxLogged_ok (db : Db) (k : Nat) (ty : TxType) (a : Num) (g n : Option String)
    (h : db.cards.any (fun c => decide (c.id = k)) = true) :
    insertTxLogged db false k ty a g n = { db with
      transactions := db.transactions ++
        [⟨nextId db.txSeq (db.transactions.map Transaction.id), k, ty, a, g, n⟩],
      txSeq := nextId db.txSeq (db.transactions.map Transaction.id) } := by
  rcases insertTxLogged_cases db k ty a g n with ⟨_, h2⟩ | h2
  · rw [h] at h2; exact absurd h2 (by simp)
  · exact h2

theorem insertTxLogged_fault (db : Db) (k : Nat) (ty : TxType) (a : Num) (g n : Option String) :
    insertTxLogged db true k ty a g n = db := by
  simp [insertTxLogged, insertTx]

/-! ## Balance invariant -/

theorem run_noFaults (db : Db) (o : Op) : o.run db noFaults = o.apply db := by
  cases o <;> rfl

theorem runWith_noFaults (ops : List Op) (db : Db) :
    runWith db (ops.map (fun o => (noFaults, o))) = runOps db ops := by
  induction ops generalizing db with
  | nil => rfl
  | cons o rest ih =>
    show runWith ((o.run db noFaults).1) (rest.map (fun o => (noFaults, o))) = _
    rw [ih, run_noFaults]
    rfl

/-- Ledger step shared by recharge and play: the balance update followed by
an insert of the transaction row that the store does not fail. -/
theorem update_insert_step (d : Db) (id k : Nat) (g : Num → Num) (ty : TxType) (a : Num)
    (gm n : Option String) (b : Num) (hb : balanceOf d id = some b)
    (hg : ∀ x, g x = x.add a) :
    ∃ extra,
      (insertTxLogged { d with cards := setBalance d.cards k g } false k ty a gm n).transactions
        = d.transactions ++ extra ∧
      balanceOf (insertTxLogged { d with cards := setBalance d.cards k g } false k ty a gm n) id
        = some (addAmounts b (extra.filter (fun t => decide (t.card_id = id)))) := by
  have hbal : ∀ x : Db, x.cards = setBalance d.cards k g →
      balanceOf x id = some (if id = k then b.add a else b) := by
    intro x hx
    rw [balanceOf_setBalance d x id k g hx, hb]
    by_cases hk : id = k <;> simp [hk, hg]
  by_cases hk : id = k
  · subst hk
    have hany : (setBalance d.cards id g).any (fun c => decide (c.id = id)) = true := by
      cases hs : selectCard d id with
      | none => simp [balanceOf, hs] at hb
      | some c =>
        rw [any_id_setBalance]
        exact any_id_of_selectCard d id c hs
    rw [insertTxLogged_ok _ id ty a gm n hany]
    refine ⟨[⟨_, id, ty, a, gm, n⟩], rfl, ?_⟩
    rw [hbal _ rfl]
    simp [addAmounts]
  · rcases insertTxLogged_cases { d with cards := setBalance d.cards k g } k ty a gm n
      with ⟨he, _⟩ | hok
    · rw [he]
      refine ⟨[], by simp, ?_⟩
      rw [hbal _ rfl]
      simp [hk, addAmounts]
    · rw [hok]
      refine ⟨[⟨_, k, ty, a, gm, n⟩], rfl, ?_⟩
      rw [hbal _ rfl]
      have hk2 : ¬ k = id := fun h => hk h.symm
      simp [hk, hk2, addAmounts]

theorem recharge_step (d : Db) (f : Faults) (id k : Nat) (amount : JsVal) (note : String)
    (b : Num) (hf : f.insertTx = false) (hb : balanceOf d id = some b) :
    ∃ extra,
      (recharge d f k amount note).1.transactions = d.transactions ++ extra ∧
      balanceOf (recharge d f k amount note).1 id
        = some (addAmounts b (extra.filter (fun t => decide (t.card_id = id)))) := by
  unfold recharge
  by_cases hv : ((parseFloat amount).isNaN || (parseFloat amount).le (.fin 0)) = true
  · refine ⟨[], ?_, ?_⟩ <;> simp [hv, hb, addAmounts]
  · by_cases hu : f.updateCard = true
    · refine ⟨[], ?_, ?_⟩ <;> simp [hv, hu, updateBalance, hb, addAmounts]
    · have hu2 : f.updateCard = false := by simpa using hu
      simp only [hv, hf, hu2, updateBalance_ok]
      obtain ⟨extra, h1, h2⟩ := update_insert_step d id k (fun b => b.add (parseFloat amount))
        .recarga (parseFloat amount) none (if note = "" then none else some note) b hb
        (fun _ => rfl)
      refine ⟨extra, ?_, ?_⟩
      · by_cases hs : f.selectCard = true <;> simpa [hs] using h1
      · by_cases hs : f.selectCard = true <;> simpa [hs] using h2

theorem play_step (d : Db) (f : Faults) (id k : Nat) (gameId : String) (cost : JsVal)
    (b : Num) (hf : f.insertTx = false) (hb : balanceOf d id = some b) :
    ∃ extra,
      (play d f k gameId cost).1.transactions = d.transactions ++ extra ∧
      balanceOf (play d f k gameId cost).1 id
        = some (addAmounts b (extra.filter (fun t => decide (t.card_id = id)))) := by
  unfold play
  by_cases hv : (decide (gameId = "") || (parseFloat cost).isNaN ||
      (parseFloat cost).le (.fin 0)) = true
  · refine ⟨[], ?_, ?_⟩ <;> simp [hv, hb, addAmounts]
  · by_cases hsb : f.selectBalance = true
    · refine ⟨[], ?_, ?_⟩ <;> simp [hv, hsb, hb, addAmounts]
    · cases hs : selectCard d k with
      | none => refine ⟨[], ?_, ?_⟩ <;> simp [hv, hsb, hb, addAmounts]
      | some row =>
        by_cases hlt : row.balance.ofColumn.lt (parseFloat cost) = true
        · refine ⟨[], ?_, ?_⟩ <;> simp [hv, hsb, hlt, hb, addAmounts]
        · by_cases hu : f.updateCard = true
          · refine ⟨[], ?_, ?_⟩ <;> simp [hv, hsb, hlt, hu, updateBalance, hb, addAmounts]
          · have hu2 : f.updateCard = false := by simpa using hu
            simp only [hv, hsb, hlt, hf, hu2, updateBalance_ok]
            obtain ⟨extra, h1, h2⟩ := update_insert_step d id k
              (fun b => b.sub (parseFloat cost)) .juego (parseFloat cost).neg (some gameId)
              none b hb (fun _ => rfl)
            refine ⟨extra, ?_, ?_⟩
            · by_cases hc : f.selectCard = true <;> simpa [hc] using h1
            · by_cases hc : f.selectCard = true <;> simpa [hc] using h2

theorem ledgerOp_step (d : Db) (f : Faults) (id : Nat) (o : Op) (ho : o.isLedgerOp = true)
    (b : Num) (hf : f.insertTx = false) (hb : balanceOf d id = some b) :
    ∃ extra,
      (o.run d f).1.transactions = d.transactions ++ extra ∧
      balanceOf (o.run d f).1 id
        = some (addAmounts b (extra.filter (fun t => decide (t.card_id = id)))) := by
  cases o with
  | createCard h n i => simp [Op.isLedgerOp] at ho
  | deleteCard k => simp [Op.isLedgerOp] at ho
  | recharge k amount note => exact recharge_step d f id k amount note b hf hb
  | play k gameId cost => exact play_step d f id k gameId cost b hf hb

theorem ledgerOps_run (reqs : List (Faults × Op)) (d : Db) (id : Nat) (b : Num)
    (hreqs : ∀ r ∈ reqs, r.2.isLedgerOp = true ∧ r.1.insertTx = false)
    (hb : balanceOf d id = some b) :
    ∃ extra,
      (runWith d reqs).transactions = d.transactions ++ extra ∧
      balanceOf (runWith d reqs) id
        = some (addAmounts b (extra.filter (fun t => decide (t.card_id = id)))) := by
  induction reqs generalizing d b with
  | nil => exact ⟨[], by simp [runWith], by simp [runWith, hb, addAmounts]⟩
  | cons r rest ih =>
    obtain ⟨e₁, ht₁, hb₁⟩ := ledgerOp_step d r.1 id r.2
      (hreqs r (List.mem_cons_self _ _)).1 b (hreqs r (List.mem_cons_self _ _)).2 hb
    obtain ⟨e₂, ht₂, hb₂⟩ := ih (r.2.run d r.1).1 _
      (fun x hx => hreqs x (List.mem_cons_of_mem _ hx)) hb₁
    refine ⟨e₁ ++ e₂, ?_, ?_⟩
    · show (runWith (r.2.run d r.1).1 rest).transactions = _
      rw [ht₂, ht₁, List.append_assoc]
    · show balanceOf (runWith (r.2.run d r.1).1 rest) id = _
      rw [hb₂, List.filter_append]
      simp [addAmounts, List.foldl_append]

/-- C1, counterexample.  Card 2 has balance 10000000000000000.  After two
recharges of 1 on a store whose statements all run, two transactions of
amount 1 have been appended for it, yet its balance is still
10000000000000000: each addition `balance + 1` is rounded back in binary64.
The balance before the sequence plus the sum of the appended amounts is
10000000000000002.  And on the card of balance 10 a recharge of 5 whose
insert fails leaves balance 15 with no transaction appended. -/
theorem balance_sum_fails_by_rounding :
    balanceOf (runWith raceDb [(insertTxFails, Op.recharge 1 (.num (.fin 5)) "")]) 1
      = some (.fin 15) ∧
    appendedFor 1 raceDb (runWith raceDb [(insertTxFails, Op.recharge 1 (.num (.fin 5)) "")])
      = [] ∧
    balanceOf bigDb 2 = some (.fin 10000000000000000) ∧
    (appendedFor 2 bigDb (runOps bigDb twoRecharges)).map Transaction.amount
      = [.fin 1, .fin 1] ∧
    balanceOf (runOps bigDb twoRecharges) 2 = some (.fin 10000000000000000) ∧
    (Num.fin 10000000000000000).add (sumAmounts (appendedFor 2 bigDb (runOps bigDb twoRecharges)))
      = .fin 10000000000000002 ∧
    balanceOf (runOps bigDb twoRecharges) 2
      ≠ some ((Num.fin 10000000000000000).add
          (sumAmounts (appendedFor 2 bigDb (runOps bigDb twoRecharges)))) := by
  decide!

/-- C1, amended.  Balance invariant: for every store, every card that exists
in it and every sequence of recharge and play requests (to any card ids, with
any bodies, with any failing statements except the insert of the transaction
record) applied one after another, the balance of the card after the sequence
is the number reached from its balance before the sequence by adding, one
after another in the order of insertion and each time rounded to binary64,
the signed amounts of the transactions appended for that card during the
sequence.  A beginning of such a sequence is such a sequence, so the equation
holds after each request. -/
theorem balance_invariant (db : Db) (id : Nat) (b : Num) (reqs : List (Faults × Op))
    (hreqs : ∀ r ∈ reqs, r.2.isLedgerOp = true ∧ r.1.insertTx = false)
    (hb : balanceOf db id = some b) :
    balanceOf (runWith db reqs) id
      = some (addAmounts b (appendedFor id db (runWith db reqs))) := by
  obtain ⟨extra, ht, hbal⟩ := ledgerOps_run reqs db id b hreqs hb
  rw [hbal]
  unfold appendedFor
  rw [ht, List.drop_left]

/-- Witness for C1, amended: on card 2 of balance 10000000000000000, a
recharge of 1, a play of cost 2.5 and a second recharge of 1; the three
rounded additions lead back to 10000000000000000. -/
theorem balance_invariant_witness :
    balanceOf bigDb 2 = some (.fin 10000000000000000) ∧
    balanceOf (runWith bigDb [(noFaults, Op.recharge 2 (.str "1") ""),
        (noFaults, Op.play 2 "pacman" (.str "2.5")), (noFaults, Op.recharge 2 (.str "1") "")]) 2
      = some (addAmounts (.fin 10000000000000000) (appendedFor 2 bigDb
          (runWith bigDb [(noFaults, Op.recharge 2 (.str "1") ""),
            (noFaults, Op.play 2 "pacman" (.str "2.5")),
            (noFaults, Op.recharge 2 (.str "1") "")]))) ∧
    balanceOf (runWith bigDb [(noFaults, Op.recharge 2 (.str "1") ""),
        (noFaults, Op.play 2 "pacman" (.str "2.5")), (noFaults, Op.recharge 2 (.str "1") "")]) 2
      = some (.fin 10000000000000000) :=
  ⟨by decide!,
   balance_invariant bigDb 2 (.fin 10000000000000000) _ (by decide) (by decide!),
   by decide!⟩

/-! ## Non-negativity -/

/-- C2. Non-negativity is broken by card creation: on the empty store the
request `POST /api/cards` with `initialBalance = -5` is answered 201 and
stores a card of balance -5, because `parseFloat(initialBalance) || 0` lets a
negative number through and nothing checks its sign. -/
theorem createCard_negative_balance :
    runOps emptyDb [Op.createCard "Ana" "1111" (.num (.fin (-5)))]
      = { cards := [⟨1, "Ana", "1111", .fin (-5)⟩], transactions := [], cardSeq := 1,
          txSeq := 0, foreignKeys := false } ∧
    (createCard emptyDb noFaults "Ana" "1111" (.num (.fin (-5)))).2
      = ⟨201, .card (some ⟨1, "Ana", "1111", .fin (-5)⟩)⟩ ∧
    nonNegative (runOps emptyDb [Op.createCard "Ana" "1111" (.num (.fin (-5)))]) = false := by
  decide!

/-! ## Insufficient balance -/

/-- C3. For an existing card, a non-empty `gameId` and a cost that passes the
guard, with the first `SELECT` running, the play handler answers
`Saldo insuficiente` exactly when the balance it read is less than the cost
(the comparison `row.balance < c` of JavaScript, in which a NULL balance
counts as 0), and in that case the store is left exactly as it was: no
transaction is appended and no balance changes. -/
theorem play_insufficient_iff (db : Db) (f : Faults) (id : Nat) (gameId : String)
    (cost : JsVal) (row : Card) (hrow : selectCard db id = some row) (hg : gameId ≠ "")
    (hv : validAmount cost = true) (hf : f.selectBalance = false) :
    ((play db f id gameId cost).2 = insufficientBalance ↔
        row.balance.ofColumn.lt (parseFloat cost) = true) ∧
    ((play db f id gameId cost).2 = insufficientBalance →
        (play db f id gameId cost).1 = db) := by
  have hv2 : ((parseFloat cost).isNaN || (parseFloat cost).le (.fin 0)) = false := by
    simpa [validAmount] using hv
  simp only [Bool.or_eq_false_iff] at hv2
  unfold play
  by_cases hlt : row.balance.ofColumn.lt (parseFloat cost) = true
  · simp [hg, hv2.1, hv2.2, hf, hrow, hlt, insufficientBalance]
  · cases hu : updateBalance db f.updateCard id (fun b => b.sub (parseFloat cost)) with
    | error e => simp [hg, hv2.1, hv2.2, hf, hrow, hlt, hu, insufficientBalance]
    | ok d =>
      by_cases hs : f.selectCard = true <;>
        simp [hg, hv2.1, hv2.2, hf, hrow, hlt, hu, hs, insufficientBalance]

/-- Witness for C3: a play of cost 10 on the demo-like card of balance 10 is
not an overdraft, and one of cost 11 is. -/
theorem play_insufficient_iff_witness :
    selectCard raceDb 1 = some ⟨1, "Ana", "1111", .fin 10⟩ ∧
    (play raceDb noFaults 1 "pacman" (.num (.fin 11))).2 = insufficientBalance ∧
    (play raceDb noFaults 1 "pacman" (.num (.fin 11))).1 = raceDb :=
  have h := play_insufficient_iff raceDb noFaults 1 "pacman" (.num (.fin 11))
    ⟨1, "Ana", "1111", .fin 10⟩ (by decide) (by decide) (by decide!) (by decide)
  ⟨by decide, h.1.2 (by decide!), h.2 (h.1.2 (by decide!))⟩

/-! ## Failure of the transaction insert -/

/-- C4, counterexample. On the card of balance 10, with the insert into
`transactions` failing, a recharge of 5 leaves balance 15 and a play of cost 5
leaves balance 5; neither appends a transaction and both are answered 200. -/
theorem insert_failure_changes_balance :
    balanceOf raceDb 1 = some (.fin 10) ∧
    recharge raceDb insertTxFails 1 (.num (.fin 5)) ""
      = ({ cards := [⟨1, "Ana", "1111", .fin 15⟩], transactions := [], cardSeq := 1,
           txSeq := 0, foreignKeys := false },
         ⟨200, .card (some ⟨1, "Ana", "1111", .fin 15⟩)⟩) ∧
    play raceDb insertTxFails 1 "pacman" (.num (.fin 5))
      = ({ cards := [⟨1, "Ana", "1111", .fin 5⟩], transactions := [], cardSeq := 1,
           txSeq := 0, foreignKeys := false },
         ⟨200, .card (some ⟨1, "Ana", "1111", .fin 5⟩)⟩) := by
  decide!

/-- C4, amended.  When the insert of the transaction record fails after the
balance update has run, the update stays applied and nothing else changes.
For a recharge with an amount that passes the guard, the store afterwards is
the store before with the amount added to the balance of the card and with
no transaction appended, and the handler answers 200 with the card as read
back after the update (500 only when that final `SELECT` fails as well); for
an existing card the card read back carries the old balance plus the amount.
The same holds for a play that passed the balance check, with the cost
subtracted. -/
theorem insert_failure_effect (db : Db) (f : Faults) (id : Nat) (hfi : f.insertTx = true)
    (hfu : f.updateCard = false) :
    (∀ (amount : JsVal) (note : String), validAmount amount = true →
      recharge db f id amount note
        = ({ db with cards := setBalance db.cards id (fun b => b.add (parseFloat amount)) },
           if f.selectCard then ⟨500, .error SqlError.fault.message⟩
           else ⟨200, .card (selectCard { db with
             cards := setBalance db.cards id (fun b => b.add (parseFloat amount)) } id)⟩) ∧
      ∀ row, selectCard db id = some row →
        selectCard { db with
            cards := setBalance db.cards id (fun b => b.add (parseFloat amount)) } id
          = some { row with balance := row.balance.add (parseFloat amount) }) ∧
    (∀ (cost : JsVal) (gameId : String) (row : Card), validAmount cost = true →
      gameId ≠ "" → f.selectBalance = false → selectCard db id = some row →
      row.balance.ofColumn.lt (parseFloat cost) = false →
      play db f id gameId cost
        = ({ db with cards := setBalance db.cards id (fun b => b.sub (parseFloat cost)) },
           if f.selectCard then ⟨500, .error SqlError.fault.message⟩
           else ⟨200, .card (selectCard { db with
             cards := setBalance db.cards id (fun b => b.sub (parseFloat cost)) } id)⟩) ∧
      selectCard { db with
          cards := setBalance db.cards id (fun b => b.sub (parseFloat cost)) } id
        = some { row with balance := row.balance.sub (parseFloat cost) }) := by
  have hsel : ∀ (g : Num → Num) (row : Card), selectCard db id = some row →
      selectCard { db with cards := setBalance db.cards id g } id
        = some { row with balance := g row.balance } := by
    intro g row hrow
    have hid := selectCard_id db id row hrow
    unfold selectCard at hrow ⊢
    show (setBalance db.cards id g).find? (fun c => decide (c.id = id)) = _
    rw [find_setBalance, hrow]
    simp [hid]
  constructor
  · intro amount note hva
    have ha : ((parseFloat amount).isNaN || (parseFloat amount).le (.fin 0)) = false := by
      simpa [validAmount] using hva
    refine ⟨?_, fun row hrow => hsel _ row hrow⟩
    unfold recharge
    by_cases hs : f.selectCard = true <;>
      simp [ha, hfi, hfu, hs, updateBalance, insertTxLogged_fault]
  · intro cost gameId row hvc hg hfs hrow hlt
    have hc : ((parseFloat cost).isNaN || (parseFloat cost).le (.fin 0)) = false := by
      simpa [validAmount] using hvc
    simp only [Bool.or_eq_false_iff] at hc
    refine ⟨?_, hsel _ row hrow⟩
    unfold play
    by_cases hs : f.selectCard = true <;>
      simp [hc.1, hc.2, hg, hfi, hfu, hfs, hs, hrow, hlt, updateBalance, insertTxLogged_fault]

/-- Witness for C4, amended: recharge of 5 and play of cost 5 on the card of
balance 10 with the insert failing. -/
theorem insert_failure_effect_witness :
    recharge raceDb insertTxFails 1 (.num (.fin 5)) ""
      = ({ cards := [⟨1, "Ana", "1111", .fin 15⟩], transactions := [], cardSeq := 1,
           txSeq := 0, foreignKeys := false },
         ⟨200, .card (some ⟨1, "Ana", "1111", .fin 15⟩)⟩) ∧
    play raceDb insertTxFails 1 "pacman" (.num (.fin 5))
      = ({ cards := [⟨1, "Ana", "1111", .fin 5⟩], transactions := [], cardSeq := 1,
           txSeq := 0, foreignKeys := false },
         ⟨200, .card (some ⟨1, "Ana", "1111", .fin 5⟩)⟩) :=
  have h := insert_failure_effect raceDb insertTxFails 1 (by decide) (by decide)
  ⟨(h.1 (.num (.fin 5)) "" (by decide!)).1.trans (by decide!),
   (h.2 (.num (.fin 5)) "pacman" ⟨1, "Ana", "1111", .fin 10⟩ (by decide!) (by decide)
      (by decide) (by decide) (by decide!)).1.trans (by decide!)⟩

/-! ## Unknown card -/

/-- C6. After start-up only card 1 exists.  A recharge of 5 on card id 2 is
answered 200 with an empty body (`res.json(undefined)`), not with
`Tarjeta no encontrada`, and it appends a transaction row for card id 2. -/
theorem recharge_unknown_card :
    selectCard initDb 2 = none ∧
    recharge initDb noFaults 2 (.num (.fin 5)) ""
      = ({ cards := [⟨1, "Jugador Demo", "0000-0000-0000-0001", .fin 50⟩],
           transactions := [⟨1, 2, .recarga, .fin 5, none, none⟩], cardSeq := 1, txSeq := 1,
           foreignKeys := false },
         ⟨200, .card none⟩) ∧
    (recharge initDb noFaults 2 (.num (.fin 5)) "").2 ≠ cardNotFound ∧
    (play initDb noFaults 2 "pacman" (.num (.fin 5))) = (initDb, cardNotFound) := by
  decide!

/-! ## Validation of the amount -/

/-- C7, counterexample. The text `Infinity` parses to an infinite number, the
recharge handler accepts it, and the balance of the card becomes infinite. -/
theorem recharge_accepts_infinity :
    parseFloat (.str "Infinity") = .posInf ∧
    (parseFloat (.str "Infinity")).isFinite = false ∧
    recharge raceDb noFaults 1 (.str "Infinity") ""
      = ({ cards := [⟨1, "Ana", "1111", .posInf⟩],
           transactions := [⟨1, 1, .recarga, .posInf, none, none⟩], cardSeq := 1, txSeq := 1,
           foreignKeys := false },
         ⟨200, .card (some ⟨1, "Ana", "1111", .posInf⟩)⟩) := by
  decide!

/-- C7, amended. The recharge handler answers `Monto inválido` exactly when
the amount fails the guard `isNaN(amt) || amt <= 0`, and then leaves the store
unchanged; the amounts that pass the guard are those that `parseFloat` turns
into a positive rational or into plus infinity. -/
theorem recharge_invalidAmount_iff (db : Db) (f : Faults) (id : Nat) (amount : JsVal)
    (note : String) :
    ((recharge db f id amount note).2 = invalidAmount ↔ validAmount amount = false) ∧
    (validAmount amount = false → (recharge db f id amount note).1 = db) ∧
    (validAmount amount = true ↔
      parseFloat amount = .posInf ∨ ∃ q : ℚ, 0 < q ∧ parseFloat amount = .fin q) := by
  refine ⟨?_, ?_, ?_⟩
  · unfold recharge validAmount
    by_cases hv : ((parseFloat amount).isNaN || (parseFloat amount).le (.fin 0)) = true
    · simp [hv, invalidAmount]
    · cases hu : updateBalance db f.updateCard id (fun b => b.add (parseFloat amount)) with
      | error e => simp [hv, hu, invalidAmount]
      | ok d => by_cases hs : f.selectCard = true <;> simp [hv, hu, hs, invalidAmount]
  · intro hv
    have hv2 : ((parseFloat amount).isNaN || (parseFloat amount).le (.fin 0)) = true := by
      unfold validAmount at hv
      cases h : ((parseFloat amount).isNaN || (parseFloat amount).le (.fin 0))
      · rw [h] at hv; exact absurd hv (by decide)
      · rfl
    unfold recharge
    simp [hv2]
  · unfold validAmount
    cases parseFloat amount <;> simp [Num.isNaN, Num.le]

/-! ## Concurrent debits -/

/-- Five steps of a play request taken without interruption are the play
handler: the step machine refines the sequential handler. -/
theorem playSteps_eq_play (r : PlayReq) (db : Db) :
    playSteps r 5 (db, .start)
      = ((play db r.faults r.id r.gameId r.cost).1,
         .done (play db r.faults r.id r.gameId r.cost).2) := by
  unfold play
  simp only [playSteps, playStep]
  by_cases hv : (decide (r.gameId = "") || (parseFloat r.cost).isNaN ||
      (parseFloat r.cost).le (.fin 0)) = true
  · simp [hv, playStep]
  · by_cases hf : r.faults.selectBalance = true
    · simp [hv, hf, playStep]
    · cases hs : selectCard db r.id with
      | none => simp [hv, hf, hs, playStep]
      | some row =>
        by_cases hlt : row.balance.ofColumn.lt (parseFloat r.cost) = true
        · simp [hv, hf, hs, hlt, playStep]
        · cases hu : updateBalance db r.faults.updateCard r.id
              (fun b => b.sub (parseFloat r.cost)) with
          | error e => simp [hv, hf, hs, hlt, hu, playStep]
          | ok d =>
            by_cases hc : r.faults.selectCard = true <;>
              simp [hv, hf, hs, hlt, hu, hc, playStep]

/-- Two debits of 10 on the card of balance 10, one request after the other:
the first is answered 200 with balance 0, the second `Saldo insuficiente`, and
one transaction is appended. -/
theorem sequential_debits :
    runRace debitA debitB [true, true, true, true, true, false, false, false, false, false]
        ⟨raceDb, .start, .start⟩
      = ⟨{ cards := [⟨1, "Ana", "1111", .fin 0⟩],
           transactions := [⟨1, 1, .juego, .fin (-10), some "pacman", none⟩],
           cardSeq := 1, txSeq := 1, foreignKeys := false },
         .done ⟨200, .card (some ⟨1, "Ana", "1111", .fin 0⟩)⟩,
         .done insufficientBalance⟩ := by
  decide!

/-- Two debits of 10 on the card of balance 10 with the steps of the two
requests alternating: both are answered 200 with balance -10, and two
transactions are appended. -/
theorem alternating_debits :
    runRace debitA debitB [true, false, true, false, true, false, true, false, true, false]
        ⟨raceDb, .start, .start⟩
      = ⟨{ cards := [⟨1, "Ana", "1111", .fin (-10)⟩],
           transactions := [⟨1, 1, .juego, .fin (-10), some "pacman", none⟩,
                            ⟨2, 1, .juego, .fin (-10), some "tetris", none⟩],
           cardSeq := 1, txSeq := 2, foreignKeys := false },
         .done ⟨200, .card (some ⟨1, "Ana", "1111", .fin (-10)⟩)⟩,
         .done ⟨200, .card (some ⟨1, "Ana", "1111", .fin (-10)⟩)⟩⟩ := by
  decide!

/-- C5. Two debits of 10 on the card of balance 10, interleaved so that both
requests read the balance, then both callbacks check it, and only then the
two updates run: both are answered 200, the balance ends at -10 and two
transactions are appended.  The schedule lets each request take exactly its
five steps. -/
theorem concurrent_debits_double_spend :
    fairSchedule [true, false, true, false, true, true, true, false, false, false] = true ∧
    runRace debitA debitB [true, false, true, false, true, true, true, false, false, false]
        ⟨raceDb, .start, .start⟩
      = ⟨{ cards := [⟨1, "Ana", "1111", .fin (-10)⟩],
           transactions := [⟨1, 1, .juego, .fin (-10), some "pacman", none⟩,
                            ⟨2, 1, .juego, .fin (-10), some "tetris", none⟩],
           cardSeq := 1, txSeq := 2, foreignKeys := false },
         .done ⟨200, .card (some ⟨1, "Ana", "1111", .fin 0⟩)⟩,
         .done ⟨200, .card (some ⟨1, "Ana", "1111", .fin (-10)⟩)⟩⟩ := by
  decide!

theorem le_foldr_max (l : List Nat) (x : Nat) (hx : x ∈ l) : x ≤ l.foldr max 0 := by
  induction l with
  | nil => cases hx
  | cons a t ih =>
    rcases List.mem_cons.mp hx with h | h
    · subst h; exact Nat.le_max_left _ _
    · exact Nat.le_trans (ih h) (Nat.le_max_right _ _)

/-! ## Creation with an initial balance -/

/-- C8. After start-up, a recharge of 5 on the unused card id 2 leaves a
transaction row for that id; the card created next receives id 2 and balance
50, and its history then holds two transactions, the initial recharge of 50
and the earlier row of 5. -/
theorem createCard_history_two_rows :
    (createCard (runOps initDb [Op.recharge 2 (.num (.fin 5)) ""]) noFaults "Ana" "1111"
        (.num (.fin 50))).2
      = ⟨201, .card (some ⟨2, "Ana", "1111", .fin 50⟩)⟩ ∧
    history (runOps initDb [Op.recharge 2 (.num (.fin 5)) "",
        Op.createCard "Ana" "1111" (.num (.fin 50))]) 2
      = [⟨2, 2, .recarga, .fin 50, none, some "Recarga inicial"⟩,
         ⟨1, 2, .recarga, .fin 5, none, none⟩] := by
  decide!

theorem lt_nextId_ids (seq : Nat) (ids : List Nat) (x : Nat) (hx : x ∈ ids) :
    x < nextId seq ids := by
  have h1 := le_foldr_max ids x hx
  have h2 : ids.foldr max 0 ≤ max seq (ids.foldr max 0) := Nat.le_max_right _ _
  unfold nextId
  omega

theorem orZero_of_pos (x : Num) (h : Num.lt (.fin 0) x = true) : x.orZero = x := by
  cases x with
  | nan => simp [Num.lt] at h
  | fin q =>
    have hq : 0 < q := by simpa [Num.lt] using h
    simp [Num.orZero, ne_of_gt hq]
  | posInf => rfl
  | negInf => rfl

/-- On a store whose statements all run and that holds no transaction row for
the id the new card receives, the create handler with a non-empty holder, a
non-empty unused number and a positive initial balance answers 201 with a card
of that balance, and the history of the card is exactly one `recarga` of that
amount. -/
theorem createCard_initial_transaction (db : Db) (holder number : String)
    (initialBalance : JsVal) (hh : holder ≠ "") (hn : number ≠ "")
    (hu : db.cards.any (fun c => decide (c.number = number)) = false)
    (hpos : Num.lt (.fin 0) (parseFloat initialBalance) = true)
    (hfresh : ∀ t ∈ db.transactions, t.card_id ≠ nextId db.cardSeq (db.cards.map Card.id)) :
    (createCard db noFaults holder number initialBalance).2
      = ⟨201, .card (some ⟨nextId db.cardSeq (db.cards.map Card.id), holder, number,
          parseFloat initialBalance⟩)⟩ ∧
    history (createCard db noFaults holder number initialBalance).1
        (nextId db.cardSeq (db.cards.map Card.id))
      = [⟨nextId db.txSeq (db.transactions.map Transaction.id),
          nextId db.cardSeq (db.cards.map Card.id), .recarga, parseFloat initialBalance, none,
          some "Recarga inicial"⟩] := by
  have hz := orZero_of_pos _ hpos
  have hnone : db.cards.find? (fun c => decide (c.id = nextId db.cardSeq (db.cards.map Card.id)))
      = none := by
    rw [List.find?_eq_none]
    intro c hc
    have := lt_nextId_ids db.cardSeq (db.cards.map Card.id) c.id (List.mem_map_of_mem _ hc)
    simp
    omega
  have hsel : selectCard { db with
        cards := db.cards ++ [⟨nextId db.cardSeq (db.cards.map Card.id), holder, number,
          parseFloat initialBalance⟩],
        cardSeq := nextId db.cardSeq (db.cards.map Card.id) }
      (nextId db.cardSeq (db.cards.map Card.id))
      = some ⟨nextId db.cardSeq (db.cards.map Card.id), holder, number,
          parseFloat initialBalance⟩ := by
    simp [selectCard, List.find?_append, hnone]
  have hany : ({ db with
        cards := db.cards ++ [⟨nextId db.cardSeq (db.cards.map Card.id), holder, number,
          parseFloat initialBalance⟩],
        cardSeq := nextId db.cardSeq (db.cards.map Card.id) } : Db).cards.any
      (fun c => decide (c.id = nextId db.cardSeq (db.cards.map Card.id))) = true :=
    any_id_of_selectCard _ _ _ hsel
  have hfilter : db.transactions.filter
      (fun t => decide (t.card_id = nextId db.cardSeq (db.cards.map Card.id))) = [] := by
    rw [List.filter_eq_nil_iff]
    intro t ht
    simpa using hfresh t ht
  have hins := insertTxLogged_ok _ _ .recarga (parseFloat initialBalance) none
    (some "Recarga inicial") hany
  unfold createCard
  constructor
  · simp [hh, hn, hz, insertCard, hu, noFaults, hpos, hsel]
  · simp [hh, hn, hz, insertCard, hu, noFaults, hpos, hins, history, getTransactions,
      selectTransactions, List.filter_append, hfilter]

/-! ## Deletion -/

/-- C9. After start-up a card is created with initial balance 50 (id 2, one
transaction).  Deleting it is answered 200 and the card is gone, but the
history of id 2 still returns its transaction: the delete handler removes only
the row of `cards`, and the connection does not enforce foreign keys, so the
clause `ON DELETE CASCADE` does not act. -/
theorem deleteCard_leaves_transactions :
    (deleteCard (runOps initDb [Op.createCard "Ana" "1111" (.num (.fin 50))]) noFaults 2).2
      = ⟨200, .message "Tarjeta eliminada"⟩ ∧
    getCard (runOps initDb [Op.createCard "Ana" "1111" (.num (.fin 50)), Op.deleteCard 2])
        noFaults 2 = cardNotFound ∧
    history (runOps initDb [Op.createCard "Ana" "1111" (.num (.fin 50)), Op.deleteCard 2]) 2
      = [⟨1, 2, .recarga, .fin 50, none, some "Recarga inicial"⟩] := by
  decide!

/-- On a connection that enforces foreign keys the cascade acts: after a
delete that removed a card, no transaction row with that card id remains. -/
theorem deleteCard_cascade_when_enforced (db : Db) (id : Nat) (hfk : db.foreignKeys = true)
    (hok : (deleteCard db noFaults id).2.status = 200) :
    history (deleteCard db noFaults id).1 id = [] ∧
    getCard (deleteCard db noFaults id).1 noFaults id = cardNotFound := by
  unfold deleteCard deleteCardRow at hok ⊢
  by_cases hc : (db.cards.filter (fun c => decide (c.id = id))).length = 0
  · simp [noFaults, hc] at hok
  · have hpos : 0 < (db.cards.filter (fun c => decide (c.id = id))).length :=
      Nat.pos_of_ne_zero hc
    constructor
    · simp [noFaults, hc, hfk, hpos, history, getTransactions, selectTransactions,
        List.filter_filter]
    · have hnone : List.find? (fun _ : Card => false) db.cards = none := by
        rw [List.find?_eq_none]
        intro x _
        simp
      simp [noFaults, hc, getCard, cardNotFound, selectCard, hnone]

/-! ## History -/

theorem lt_nextId (seq : Nat) (txs : List Transaction) (t : Transaction) (ht : t ∈ txs) :
    t.id < nextId seq (txs.map Transaction.id) := by
  have h1 : t.id ≤ (txs.map Transaction.id).foldr max 0 :=
    le_foldr_max _ _ (List.mem_map_of_mem _ ht)
  have h2 : (txs.map Transaction.id).foldr max 0
      ≤ max seq ((txs.map Transaction.id).foldr max 0) := Nat.le_max_right _ _
  unfold nextId
  omega

theorem newestFirst_sorted (l : List Transaction) :
    (l.insertionSort (fun a b => b.id ≤ a.id)).Pairwise (fun a b => b.id ≤ a.id) := by
  haveI : IsTotal Transaction (fun a b => b.id ≤ a.id) := ⟨fun a b => Nat.le_total b.id a.id⟩
  haveI : IsTrans Transaction (fun a b => b.id ≤ a.id) :=
    ⟨fun _ _ _ hab hbc => Nat.le_trans hbc hab⟩
  exact List.sorted_insertionSort (fun a b : Transaction => b.id ≤ a.id) l

theorem head_newestFirst (l : List Transaction) (x : Transaction)
    (hx : ∀ t ∈ l, t.id < x.id) :
    ((l ++ [x]).insertionSort (fun a b => b.id ≤ a.id)).head? = some x := by
  have hperm := List.perm_insertionSort (fun a b : Transaction => b.id ≤ a.id) (l ++ [x])
  have hsorted := newestFirst_sorted (l ++ [x])
  have hxmem : x ∈ (l ++ [x]).insertionSort (fun a b => b.id ≤ a.id) :=
    hperm.symm.subset (by simp)
  cases hs : (l ++ [x]).insertionSort (fun a b => b.id ≤ a.id) with
  | nil => rw [hs] at hxmem; cases hxmem
  | cons h t =>
    rw [hs] at hxmem hsorted
    have hh : h ∈ l ++ [x] := hperm.subset (by rw [hs]; exact List.mem_cons_self _ _)
    rcases List.mem_append.mp hh with hl | hl
    · have hlt := hx h hl
      rcases List.mem_cons.mp hxmem with he | he
      · rw [he]; rfl
      · have := (List.pairwise_cons.mp hsorted).1 x he
        omega
    · have : h = x := by simpa using hl
      rw [this]; rfl

theorem history_eq (db : Db) (id : Nat) : history db id = selectTransactions db id := by
  simp [history, getTransactions, noFaults]

theorem recharge_ok_store (db : Db) (f : Faults) (id : Nat) (amount : JsVal) (note : String)
    (row : Card) (hrow : selectCard db id = some row)
    (hok : (recharge db f id amount note).2.status = 200) (hfi : f.insertTx = false) :
    (recharge db f id amount note).1.transactions
      = db.transactions ++ [⟨nextId db.txSeq (db.transactions.map Transaction.id), id,
          .recarga, parseFloat amount, none, if note = "" then none else some note⟩] := by
  have hany : (setBalance db.cards id (fun b => b.add (parseFloat amount))).any
      (fun c => decide (c.id = id)) = true := by
    rw [any_id_setBalance]
    exact any_id_of_selectCard db id row hrow
  have hins := insertTxLogged_ok { db with
      cards := setBalance db.cards id (fun b => b.add (parseFloat amount)) } id .recarga
    (parseFloat amount) none (if note = "" then none else some note) hany
  unfold recharge at hok ⊢
  by_cases hv : ((parseFloat amount).isNaN || (parseFloat amount).le (.fin 0)) = true
  · simp [hv] at hok
  · by_cases hu : f.updateCard = true
    · simp [hv, hu, updateBalance] at hok
    · by_cases hs : f.selectCard = true
      · simp [hv, hu, hs, updateBalance] at hok
      · simp [hv, hu, hs, hfi, updateBalance, hins]

/-- C10, counterexample.  With the insert into `transactions` failing, a
recharge of 25 on the card of balance 10 is answered 200 with balance 35, and
History then returns no transaction for the card. -/
theorem recharge_ok_without_history :
    (recharge raceDb insertTxFails 1 (.num (.fin 25)) "top-up").2
      = ⟨200, .card (some ⟨1, "Ana", "1111", .fin 35⟩)⟩ ∧
    getTransactions (recharge raceDb insertTxFails 1 (.num (.fin 25)) "top-up").1 noFaults 1
      = ⟨200, .transactions []⟩ ∧
    (history (recharge raceDb insertTxFails 1 (.num (.fin 25)) "top-up").1 1).head? = none := by
  decide!

/-- C10, amended.  Round trip and ordering.  After a recharge of an existing
card that is answered 200 and whose insert of the transaction record did not
fail, the first row that History returns for that card is the new one: a
`recarga` whose amount is the parsed amount and whose note is the given one,
with an id above every earlier one.  For every store and card id, History
answers 500 when its `SELECT` fails and otherwise answers 200 with at most
200 rows, ordered by descending insertion id, each of them a transaction of
that card; every transaction of the card that is left out is no newer than
any row returned, and nothing is left out when the card has at most 200. -/
theorem history_round_trip (db : Db) (f : Faults) (id : Nat) (amount : JsVal) (note : String)
    (row : Card) (hrow : selectCard db id = some row)
    (hok : (recharge db f id amount note).2.status = 200) (hfi : f.insertTx = false) :
    (∃ t, (history (recharge db f id amount note).1 id).head? = some t ∧
      t.type = .recarga ∧ t.amount = parseFloat amount ∧ t.card_id = id ∧
      t.note = (if note = "" then none else some note) ∧
      ∀ u ∈ db.transactions, u.id < t.id) ∧
    (∀ (d : Db) (g : Faults) (k : Nat),
      (g.selectTransactions = true → (getTransactions d g k).status = 500) ∧
      (g.selectTransactions = false →
        getTransactions d g k = ⟨200, .transactions (history d k)⟩) ∧
      (history d k).length ≤ 200 ∧
      (history d k).Pairwise (fun a b => b.id ≤ a.id) ∧
      (∀ t ∈ history d k, t ∈ d.transactions ∧ t.card_id = k) ∧
      (∀ t ∈ d.transactions, t.card_id = k → t ∉ history d k →
        ∀ r ∈ history d k, t.id ≤ r.id) ∧
      ((d.transactions.filter (fun t => decide (t.card_id = k))).length ≤ 200 →
        (history d k).Perm (d.transactions.filter (fun t => decide (t.card_id = k))))) := by
  have htx := recharge_ok_store db f id amount note row hrow hok hfi
  refine ⟨?_, ?_⟩
  · refine ⟨⟨nextId db.txSeq (db.transactions.map Transaction.id), id, .recarga,
      parseFloat amount, none, if note = "" then none else some note⟩, ?_, rfl, rfl, rfl, rfl,
      fun u hu => lt_nextId _ _ u hu⟩
    rw [history_eq]
    simp only [selectTransactions, htx, List.filter_append]
    have hf : List.filter (fun t : Transaction => decide (t.card_id = id))
        [⟨nextId db.txSeq (db.transactions.map Transaction.id), id, .recarga,
          parseFloat amount, none, if note = "" then none else some note⟩]
        = [⟨nextId db.txSeq (db.transactions.map Transaction.id), id, .recarga,
          parseFloat amount, none, if note = "" then none else some note⟩] := by
      simp
    rw [hf, List.head?_take, if_neg (by decide)]
    apply head_newestFirst
    intro t ht
    exact lt_nextId _ _ t (List.mem_of_mem_filter ht)
  · intro d g k
    have hperm := List.perm_insertionSort (fun a b : Transaction => b.id ≤ a.id)
      (d.transactions.filter (fun t => decide (t.card_id = k)))
    have hsorted := newestFirst_sorted (d.transactions.filter (fun t => decide (t.card_id = k)))
    refine ⟨fun hg => by simp [getTransactions, hg],
      fun hg => by simp [getTransactions, hg, history_eq], ?_⟩
    rw [history_eq]
    simp only [selectTransactions]
    refine ⟨List.length_take_le _ _, hsorted.sublist (List.take_sublist _ _), ?_, ?_, ?_⟩
    · intro t ht
      have := List.mem_filter.mp (hperm.subset (List.mem_of_mem_take ht))
      exact ⟨this.1, by simpa using this.2⟩
    · intro t ht hk hnot r hr
      have hmem : t ∈ (d.transactions.filter (fun t => decide (t.card_id = k))).insertionSort
          (fun a b => b.id ≤ a.id) :=
        hperm.symm.subset (List.mem_filter.mpr ⟨ht, by simpa using hk⟩)
      rw [← List.take_append_drop 200 ((d.transactions.filter
        (fun t => decide (t.card_id = k))).insertionSort (fun a b => b.id ≤ a.id))] at hmem hsorted
      rcases List.mem_append.mp hmem with h | h
      · exact absurd h hnot
      · exact (List.pairwise_append.mp hsorted).2.2 r hr t h
    · intro hlen
      rw [List.take_of_length_le (by rw [hperm.length_eq]; exact hlen)]
      exact hperm

/-- Witness for C10, amended: a recharge of 25 with the note `top-up` on the
card of balance 10. -/
theorem history_round_trip_witness :
    (recharge raceDb noFaults 1 (.num (.fin 25)) "top-up").2.status = 200 ∧
    history (recharge raceDb noFaults 1 (.num (.fin 25)) "top-up").1 1
      = [⟨1, 1, .recarga, .fin 25, none, some "top-up"⟩] ∧
    ∃ t, (history (recharge raceDb noFaults 1 (.num (.fin 25)) "top-up").1 1).head? = some t ∧
      t.type = .recarga ∧ t.amount = parseFloat (.num (.fin 25)) ∧ t.card_id = 1 ∧
      t.note = (if "top-up" = "" then none else some "top-up") ∧
      ∀ u ∈ raceDb.transactions, u.id < t.id :=
  have h := history_round_trip raceDb noFaults 1 (.num (.fin 25)) "top-up"
    ⟨1, "Ana", "1111", .fin 10⟩ (by decide) (by decide!) (by decide)
  ⟨by decide!, by decide!, h.1⟩

end Arcade
